import Mathlib

/-!
Verification of the decision engine in bot.py: majority-vote aggregation,
position open/close simulation with take-profit / stop-loss triggers, and
the multiplicative per-source weight update.

Prices, percentages and dollar amounts are modelled as exact rationals;
the weight store is real-valued because the update rule uses exp and sqrt.
-/

namespace BinanceBot

/-- A vote action: the three values a stub agent can return. -/
inductive Action
  | buy
  | sell
  | hold
  deriving DecidableEq, Repr, Fintype

/-- Position direction, "long" or "short" in bot.py. -/
inductive Side
  | long
  | short
  deriving DecidableEq, Repr

/-- One agent response, as produced by stub_agent: engine name, vote,
confidence and rationale. -/
structure Response where
  engine : String
  vote : Action
  confidence : ℚ
  rationale : String
  deriving DecidableEq, Repr

/-- The configuration read from environment variables at startup:
TRADE_USD, TP_PCT, SL_PCT, WEIGHT_LR. -/
structure Config where
  trade_usd : ℚ
  tp_pct : ℚ
  sl_pct : ℚ
  weight_lr : ℚ
  deriving DecidableEq, Repr

/-- The default configuration of bot.py: TRADE_USD=100.0, TP_PCT=2.0,
SL_PCT=3.0, WEIGHT_LR=0.04. -/
def defaultConfig : Config :=
  { trade_usd := 100, tp_pct := 2, sl_pct := 3, weight_lr := 4 / 100 }

/-- Number of responses voting a given action: the counts dict built by
majority_decision. -/
def count_votes (a : Action) (responses : List Response) : ℕ :=
  responses.countP (fun r => r.vote = a)

/-- The Decision returned by majority_decision: the chosen action and the
counts of the buy, sell and hold buckets, in that order. -/
structure Decision where
  decision : Action
  counts : ℕ × ℕ × ℕ
  deriving DecidableEq, Repr

/-- The maximal bucket size max(counts.values()) in majority_decision,
the dict holding the buckets in the order buy, sell, hold. -/
def max_votes_of (responses : List Response) : ℕ :=
  max (count_votes .buy responses)
    (max (count_votes .sell responses) (count_votes .hold responses))

/-- The winners list of majority_decision: the actions achieving the
maximal count, in the dict order buy, sell, hold. -/
def winners_of (responses : List Response) : List Action :=
  [Action.buy, Action.sell, Action.hold].filter
    (fun a => count_votes a responses = max_votes_of responses)

/-- majority_decision from bot.py: tally votes into the three buckets,
take the actions achieving the maximal count, and return that action
when the winner is unique, otherwise hold. -/
def majority_decision (responses : List Response) : Decision :=
  match winners_of responses with
  | [w] => { decision := w
             counts := (count_votes .buy responses, count_votes .sell responses,
               count_votes .hold responses) }
  | _ => { decision := .hold
           counts := (count_votes .buy responses, count_votes .sell responses,
             count_votes .hold responses) }

/-- Round a rational to the nearest integer, ties to even: the rounding
rule of Python's builtin round, used by bot.py on pnl values. -/
def roundHalfEven (q : ℚ) : ℤ :=
  let f := ⌊q⌋
  let frac := q - f
  if frac < 1 / 2 then f
  else if 1 / 2 < frac then f + 1
  else if f % 2 = 0 then f else f + 1

/-- round(x, 2) of bot.py: round to 2 decimal places, ties to even. -/
def round2 (q : ℚ) : ℚ := (roundHalfEven (q * 100) : ℚ) / 100

/-- round(x, 4) of bot.py: round to 4 decimal places, ties to even. -/
def round4 (q : ℚ) : ℚ := (roundHalfEven (q * 10000) : ℚ) / 10000

/-- An open position as built by simulate_open: the pos dict. The
responses field is the attribution list attached by main_loop after the
open (absent at open time, hence the empty default, matching
pos.get with default empty list in simulate_close). -/
structure Position where
  trade_id : ℕ
  symbol : String
  side : Side
  entry : ℚ
  qty : ℚ
  tp : ℚ
  sl : ℚ
  responses : List Response
  deriving DecidableEq, Repr

/-- A closed trade record as built by simulate_close. pnl_usd is rounded
to 2 decimals and pnl_pct to 4, as in the trade dict. -/
structure Trade where
  trade_id : ℕ
  symbol : String
  side : Side
  entry : ℚ
  exit : ℚ
  pnl_usd : ℚ
  pnl_pct : ℚ
  result : String
  deriving DecidableEq, Repr

/-- Lookup in the open_positions dict, keyed by trade id. -/
def dict_get : ℕ → List (ℕ × Position) → Option Position
  | _, [] => none
  | tid, (k, p) :: t => if k = tid then some p else dict_get tid t

/-- Deletion from the open_positions dict, keyed by trade id. -/
def dict_del (tid : ℕ) : List (ℕ × Position) → List (ℕ × Position)
  | [] => []
  | (k, p) :: t => if k = tid then dict_del tid t else (k, p) :: dict_del tid t

/-- The mutable module state of bot.py: the open_positions dict, the
trade_seq counter, and the engine_weights store. The store is modelled
as a total function because get_weights together with the default 1.0 in
update_weights_from_trade behaves as one; init_db seeds every engine
with weight 1.0. -/
structure BotState where
  open_positions : List (ℕ × Position)
  trade_seq : ℕ
  weights : String → ℝ

/-- The state after init_db: no open positions, trade_seq 0, every
engine weight 1.0. -/
def initState : BotState :=
  { open_positions := [], trade_seq := 0, weights := fun _ => 1 }

/-- simulate_open from bot.py: bump trade_seq, compute quantity as
notional over entry when the entry is positive and 0 otherwise, compute
take-profit and stop-loss prices from the percentage offsets, and insert
the new position into open_positions. It never fails. -/
def simulate_open (cfg : Config) (symbol : String) (side : Side) (price : ℚ)
    (st : BotState) : BotState × Position :=
  let trade_seq := st.trade_seq + 1
  let entry := price
  let qty := if entry > 0 then cfg.trade_usd / entry else 0
  let pos : Position :=
    { trade_id := trade_seq
      symbol := symbol
      side := side
      entry := entry
      qty := qty
      tp := if side = .long then entry * (1 + cfg.tp_pct / 100)
            else entry * (1 - cfg.tp_pct / 100)
      sl := if side = .long then entry * (1 - cfg.sl_pct / 100)
            else entry * (1 + cfg.sl_pct / 100)
      responses := [] }
  ({ st with
      trade_seq := trade_seq
      open_positions := (trade_seq, pos) :: st.open_positions }, pos)

/-- The unrounded percent profit computed by simulate_close: signed
relative move of exit versus entry, times 100. -/
def pnl_pct_of (pos : Position) (exit_price : ℚ) : ℚ :=
  if pos.side = .long then (exit_price - pos.entry) / pos.entry * 100
  else (pos.entry - exit_price) / pos.entry * 100

/-- The unrounded dollar profit computed by simulate_close: notional
times percent profit over 100. -/
def pnl_usd_of (cfg : Config) (pos : Position) (exit_price : ℚ) : ℚ :=
  cfg.trade_usd * (pnl_pct_of pos exit_price / 100)

/-- The alignment factor in update_weights_from_trade: +1.0 when the
vote equals the profitable side (buy when pnl is positive, sell
otherwise), else -1.0. -/
def alignment (pnl : ℚ) (vote : Action) : ℝ :=
  if vote = (if 0 < pnl then Action.buy else Action.sell) then 1 else -1

/-- The learning score of one response in update_weights_from_trade:
confidence times alignment times sqrt of the absolute pnl plus one. -/
noncomputable def vote_score (pnl : ℚ) (r : Response) : ℝ :=
  (r.confidence : ℝ) * alignment pnl r.vote * Real.sqrt (|(pnl : ℝ)| + 1)

/-- The clamp applied to every new weight: max(0.1, min(w, 20.0)). -/
def clamp_weight (w : ℝ) : ℝ := max 0.1 (min w 20)

/-- One iteration of the response loop in update_weights_from_trade:
read the old weight from the snapshot taken before the loop, multiply by
exp of the learning rate times the score, clamp, and store under the
engine's name. -/
noncomputable def apply_response (cfg : Config) (pnl : ℚ)
    (snapshot : String → ℝ) (w : String → ℝ) (r : Response) : String → ℝ :=
  let old_w := snapshot r.engine
  let new_w := old_w * Real.exp ((cfg.weight_lr : ℝ) * vote_score pnl r)
  fun name => if name = r.engine then clamp_weight new_w else w name

/-- update_weights_from_trade from bot.py: short-circuit when the
trade's (rounded) dollar profit is exactly zero, otherwise fold the
response loop over the contributing votes; cur_weights is read once
before the loop, so every old weight comes from that snapshot. -/
noncomputable def update_weights_from_trade (cfg : Config) (pnl : ℚ)
    (responses : List Response) (w : String → ℝ) : String → ℝ :=
  if pnl = 0 then w
  else responses.foldl (apply_response cfg pnl w) w

/-- simulate_close from bot.py: none when the trade id is not in
open_positions; otherwise build the trade record with rounded pnl
fields, result win exactly when the unrounded dollar profit is positive,
update the weights from the rounded dollar profit and the position's
attributed responses, and delete the position. -/
noncomputable def simulate_close (cfg : Config) (tid : ℕ) (exit_price : ℚ)
    (st : BotState) : Option (BotState × Trade) :=
  match dict_get tid st.open_positions with
  | none => none
  | some pos =>
    let pnl_pct := pnl_pct_of pos exit_price
    let pnl_usd := pnl_usd_of cfg pos exit_price
    let trade : Trade :=
      { trade_id := tid
        symbol := pos.symbol
        side := pos.side
        entry := pos.entry
        exit := exit_price
        pnl_usd := round2 pnl_usd
        pnl_pct := round4 pnl_pct
        result := if pnl_usd > 0 then "win" else "loss" }
    some
      ({ st with
          open_positions := dict_del tid st.open_positions
          weights := update_weights_from_trade cfg trade.pnl_usd
            pos.responses st.weights }, trade)

/-- The reason a trigger fires. -/
inductive ClosureReason
  | target_hit
  | stop_hit
  deriving DecidableEq, Repr

/-- The trigger conditions of main_loop step 1: target first (long at or
above tp, short at or below tp), then stop (long at or below sl, short
at or above sl), else none. -/
def evaluate_trigger (pos : Position) (price : ℚ) : Option ClosureReason :=
  if (pos.side = .long ∧ pos.tp ≤ price) ∨ (pos.side = .short ∧ price ≤ pos.tp) then
    some .target_hit
  else if (pos.side = .long ∧ price ≤ pos.sl) ∨ (pos.side = .short ∧ pos.sl ≤ price) then
    some .stop_hit
  else
    none

/-- One position check of main_loop step 1: skip when no price is
available; close at the tp price on a target hit and at the sl price on
a stop hit; otherwise leave the state untouched. -/
noncomputable def check_position (cfg : Config) (tid : ℕ) (pos : Position)
    (price_now : Option ℚ) (st : BotState) : BotState :=
  match price_now with
  | none => st
  | some p =>
    match evaluate_trigger pos p with
    | some .target_hit => ((simulate_close cfg tid pos.tp st).map Prod.fst).getD st
    | some .stop_hit => ((simulate_close cfg tid pos.sl st).map Prod.fst).getD st
    | none => st

/-- A whole sequence of weight updates: fold update_weights_from_trade
over a list of closed trades, each carrying its rounded dollar profit
and its contributing responses. -/
noncomputable def apply_trades (cfg : Config) (ts : List (ℚ × List Response))
    (w : String → ℝ) : String → ℝ :=
  ts.foldl (fun acc t => update_weights_from_trade cfg t.1 t.2 acc) w

/-! ## Lemmas about the decision aggregator -/

lemma winners_of_singleton (rs : List Response) (a : Action)
    (ha : ∀ b : Action, b ≠ a → count_votes b rs < count_votes a rs) :
    winners_of rs = [a] := by
  cases a with
  | buy =>
    have hs := ha .sell (by decide)
    have hh := ha .hold (by decide)
    have hmv : max_votes_of rs = count_votes .buy rs := by
      unfold max_votes_of; omega
    simp [winners_of, hmv, List.filter, Nat.ne_of_lt hs, Nat.ne_of_lt hh]
  | sell =>
    have hb := ha .buy (by decide)
    have hh := ha .hold (by decide)
    have hmv : max_votes_of rs = count_votes .sell rs := by
      unfold max_votes_of; omega
    simp [winners_of, hmv, List.filter, Nat.ne_of_lt hb, Nat.ne_of_lt hh]
  | hold =>
    have hb := ha .buy (by decide)
    have hs := ha .sell (by decide)
    have hmv : max_votes_of rs = count_votes .hold rs := by
      unfold max_votes_of; omega
    simp [winners_of, hmv, List.filter, Nat.ne_of_lt hb, Nat.ne_of_lt hs]

lemma mem_winners_of (rs : List Response) (a : Action)
    (ha : count_votes a rs = max_votes_of rs) : a ∈ winners_of rs := by
  have : a ∈ [Action.buy, Action.sell, Action.hold] := by cases a <;> simp
  simp [winners_of, List.mem_filter, this, ha]

/-! ## Theorems -/

/-- C1: majority_decision always returns one of buy, sell, hold together
with the three bucket counts; when exactly one action achieves the
maximal count the decision is that action; when two distinct actions
both achieve the maximal count (including the empty-input case) the
decision is hold. -/
theorem C1_majority_decision (rs : List Response) :
    ((majority_decision rs).decision = Action.buy ∨
        (majority_decision rs).decision = Action.sell ∨
        (majority_decision rs).decision = Action.hold) ∧
      (majority_decision rs).counts =
        (count_votes .buy rs, count_votes .sell rs, count_votes .hold rs) ∧
      (∀ a : Action, (∀ b : Action, b ≠ a → count_votes b rs < count_votes a rs) →
        (majority_decision rs).decision = a) ∧
      ∀ a b : Action, a ≠ b → count_votes a rs = count_votes b rs →
        (∀ c : Action, count_votes c rs ≤ count_votes a rs) →
        (majority_decision rs).decision = Action.hold := by
  refine ⟨?_, ?_, ?_, ?_⟩
  · cases h : (majority_decision rs).decision <;> simp
  · unfold majority_decision
    rcases winners_of rs with _ | ⟨x, _ | ⟨y, t⟩⟩ <;> rfl
  · intro a ha
    unfold majority_decision
    rw [winners_of_singleton rs a ha]
  · intro a b hab hcnt hmax
    have hmva : max_votes_of rs = count_votes a rs := by
      have h1 := hmax .buy
      have h2 := hmax .sell
      have h3 := hmax .hold
      cases a <;> (unfold max_votes_of; omega)
    have hma : a ∈ winners_of rs := mem_winners_of rs a hmva.symm
    have hmb : b ∈ winners_of rs := mem_winners_of rs b (by rw [← hcnt, hmva])
    unfold majority_decision
    rcases hw : winners_of rs with _ | ⟨x, _ | ⟨y, t⟩⟩
    · rw [hw] at hma
    · rw [hw] at hma hmb
      simp at hma hmb
      exact absurd (hma.trans hmb.symm) hab
    · rfl

/-- Witness for C1: three buy votes against one sell vote decide buy;
the empty vote list decides hold. -/
theorem C1_majority_decision_witness :
    (majority_decision
        [{ engine := "GPT-5", vote := .buy, confidence := 8 / 10, rationale := "r1" },
          { engine := "Grok", vote := .buy, confidence := 1 / 2, rationale := "r2" },
          { engine := "Gemini", vote := .buy, confidence := 9 / 10, rationale := "r3" },
          { engine := "Claude", vote := .sell, confidence := 6 / 10, rationale := "r4" }]).decision =
      Action.buy ∧
    (majority_decision []).decision = Action.hold := by
  constructor
  · exact (C1_majority_decision _).2.2.1 .buy (by decide)
  · exact (C1_majority_decision []).2.2.2 .buy .sell (by decide) (by decide) (by decide)

/-- The trigger for a long position reduces to the two price
comparisons against tp and then sl. -/
lemma evaluate_trigger_long (pos : Position) (price : ℚ) (hside : pos.side = .long) :
    evaluate_trigger pos price =
      if pos.tp ≤ price then some .target_hit
      else if price ≤ pos.sl then some .stop_hit
      else none := by
  simp [evaluate_trigger, hside]

/-- The trigger for a short position reduces to the two inverted price
comparisons against tp and then sl. -/
lemma evaluate_trigger_short (pos : Position) (price : ℚ) (hside : pos.side = .short) :
    evaluate_trigger pos price =
      if price ≤ pos.tp then some .target_hit
      else if pos.sl ≤ price then some .stop_hit
      else none := by
  simp [evaluate_trigger, hside]

/-- C2: for a long position with stop below target, the trigger returns
target-hit exactly when the price is at or above target and stop-hit
exactly when it is at or below stop; for a short position with target
below stop the comparisons invert; the target condition always wins when
it holds (checked first); and a price strictly between stop and target
fires nothing and leaves the state, hence the open-position set,
untouched. -/
theorem C2_evaluate_trigger (pos : Position) (price : ℚ) :
    (pos.side = .long → pos.sl < pos.tp →
      ((evaluate_trigger pos price = some .target_hit ↔ pos.tp ≤ price) ∧
        (evaluate_trigger pos price = some .stop_hit ↔ price ≤ pos.sl) ∧
        (pos.sl < price → price < pos.tp → evaluate_trigger pos price = none))) ∧
      (pos.side = .short → pos.tp < pos.sl →
        ((evaluate_trigger pos price = some .target_hit ↔ price ≤ pos.tp) ∧
          (evaluate_trigger pos price = some .stop_hit ↔ pos.sl ≤ price) ∧
          (pos.tp < price → price < pos.sl → evaluate_trigger pos price = none))) ∧
      ((pos.side = .long ∧ pos.tp ≤ price) ∨ (pos.side = .short ∧ price ≤ pos.tp) →
        evaluate_trigger pos price = some .target_hit) ∧
      ∀ cfg tid st, evaluate_trigger pos price = none →
        check_position cfg tid pos (some price) st = st := by
  refine ⟨?_, ?_, ?_, ?_⟩
  · intro hside hst
    rw [evaluate_trigger_long pos price hside]
    rcases le_or_lt pos.tp price with h1 | h1
    · rw [if_pos h1]
      refine ⟨by simp [h1], ?_, ?_⟩
      · constructor
        · intro h; simp at h
        · intro hp; exact absurd (h1.trans hp) (not_le.mpr hst)
      · intro hp1 hp2; exact absurd h1 (not_le.mpr hp2)
    · rw [if_neg (not_le.mpr h1)]
      rcases le_or_lt price pos.sl with h2 | h2
      · rw [if_pos h2]
        refine ⟨?_, by simp [h2], ?_⟩
        · constructor
          · intro h; simp at h
          · intro hc; exact absurd hc (not_le.mpr h1)
        · intro hp1 hp2; exact absurd h2 (not_le.mpr hp1)
      · rw [if_neg (not_le.mpr h2)]
        refine ⟨?_, ?_, fun _ _ => rfl⟩
        · simp; exact h1
        · simp; exact h2
  · intro hside hst
    rw [evaluate_trigger_short pos price hside]
    rcases le_or_lt price pos.tp with h1 | h1
    · rw [if_pos h1]
      refine ⟨by simp [h1], ?_, ?_⟩
      · constructor
        · intro h; simp at h
        · intro hp; exact absurd (hp.trans h1) (not_le.mpr hst)
      · intro hp1 hp2; exact absurd h1 (not_le.mpr hp1)
    · rw [if_neg (not_le.mpr h1)]
      rcases le_or_lt pos.sl price with h2 | h2
      · rw [if_pos h2]
        refine ⟨?_, by simp [h2], ?_⟩
        · constructor
          · intro h; simp at h
          · intro hc; exact absurd hc (not_le.mpr h1)
        · intro hp1 hp2; exact absurd h2 (not_le.mpr hp2)
      · rw [if_neg (not_le.mpr h2)]
        refine ⟨?_, ?_, fun _ _ => rfl⟩
        · simp; exact h1
        · simp; exact h2
  · intro hcond
    unfold evaluate_trigger
    rw [if_pos]
    rcases hcond with ⟨h1, h2⟩ | ⟨h1, h2⟩
    · exact Or.inl ⟨h1, h2⟩
    · exact Or.inr ⟨h1, h2⟩
  · intro cfg tid st hnone
    unfold check_position
    dsimp only
    rw [hnone]

/-- Witness for C2: a long position with entry 100, target 102, stop 97
fires nothing at price 100 and the state is unchanged. -/
theorem C2_evaluate_trigger_witness :
    evaluate_trigger (simulate_open defaultConfig "BTC/USDT" .long 100 initState).2 100 =
      none := by
  have h := ((C2_evaluate_trigger
      (simulate_open defaultConfig "BTC/USDT" .long 100 initState).2 100).1
    rfl (by norm_num [simulate_open, defaultConfig])).2.2
  exact h (by norm_num [simulate_open, defaultConfig]) (by norm_num [simulate_open, defaultConfig])

/-- C4: simulate_open computes the target and stop prices at open time
from the entry price and the configured percentage offsets — long target
entry times one plus TP over 100, long stop entry times one minus SL
over 100, and inverted signs for a short — and with the default
configuration (TP 2, SL 3) an entry of 100 gives a long exactly
target 102 and stop 97, and a short exactly target 98 and stop 103. -/
theorem C4_simulate_open_targets (cfg : Config) (symbol : String) (side : Side)
    (price : ℚ) (st : BotState) (hp : 0 < price) :
    ((simulate_open cfg symbol side price st).2.entry = price) ∧
      (side = .long →
        (simulate_open cfg symbol side price st).2.tp = price * (1 + cfg.tp_pct / 100) ∧
          (simulate_open cfg symbol side price st).2.sl = price * (1 - cfg.sl_pct / 100)) ∧
      (side = .short →
        (simulate_open cfg symbol side price st).2.tp = price * (1 - cfg.tp_pct / 100) ∧
          (simulate_open cfg symbol side price st).2.sl = price * (1 + cfg.sl_pct / 100)) ∧
      (cfg = defaultConfig → price = 100 →
        ((side = .long →
            (simulate_open cfg symbol side price st).2.tp = 102 ∧
              (simulate_open cfg symbol side price st).2.sl = 97) ∧
          (side = .short →
            (simulate_open cfg symbol side price st).2.tp = 98 ∧
              (simulate_open cfg symbol side price st).2.sl = 103))) := by
  refine ⟨rfl, ?_, ?_, ?_⟩
  · intro hside
    constructor <;> simp [simulate_open, hside]
  · intro hside
    constructor <;> simp [simulate_open, hside]
  · intro hcfg hprice
    subst hcfg hprice
    constructor <;> intro hside <;> constructor <;>
      simp [simulate_open, hside, defaultConfig] <;> norm_num

/-- Witness for C4: with the default configuration, a long opened at 100
gets target exactly 102 and stop exactly 97. -/
theorem C4_simulate_open_targets_witness :
    (simulate_open defaultConfig "BTC/USDT" .long 100 initState).2.tp = 102 ∧
      (simulate_open defaultConfig "BTC/USDT" .long 100 initState).2.sl = 97 :=
  ((C4_simulate_open_targets defaultConfig "BTC/USDT" .long 100 initState
    (by norm_num)).2.2.2 rfl rfl).1 rfl

/-- Looking up a deleted key yields nothing. -/
lemma dict_get_del_self (tid : ℕ) (l : List (ℕ × Position)) :
    dict_get tid (dict_del tid l) = none := by
  induction l with
  | nil => rfl
  | cons hd t ih =>
    obtain ⟨k, p⟩ := hd
    simp only [dict_del]
    by_cases h : k = tid
    · rw [if_pos h]; exact ih
    · rw [if_neg h]
      simp only [dict_get]
      rw [if_neg h]
      exact ih

/-- Deleting one key leaves every other key's binding unchanged. -/
lemma dict_get_del_ne (tid tid2 : ℕ) (l : List (ℕ × Position)) (h : tid2 ≠ tid) :
    dict_get tid2 (dict_del tid l) = dict_get tid2 l := by
  induction l with
  | nil => rfl
  | cons hd t ih =>
    obtain ⟨k, p⟩ := hd
    simp only [dict_del, dict_get]
    by_cases h1 : k = tid
    · rw [if_pos h1, ih, if_neg (by rw [h1]; exact fun he => h he.symm)]
    · rw [if_neg h1]
      simp only [dict_get]
      by_cases h2 : k = tid2
      · rw [if_pos h2, if_pos h2]
      · rw [if_neg h2, if_neg h2]
        exact ih

/-- C7 counterexample: opening at entry price 0 does not fail — the
position is created with quantity 0 and inserted into the open set, so
no InvalidPriceError exists on this path. -/
theorem C7_counterexample :
    (simulate_open defaultConfig "BTC/USDT" .long 0 initState).2.qty = 0 ∧
      dict_get 1 (simulate_open defaultConfig "BTC/USDT" .long 0 initState).1.open_positions =
        some (simulate_open defaultConfig "BTC/USDT" .long 0 initState).2 := by
  constructor
  · simp [simulate_open]
  · simp [simulate_open, initState, dict_get]

/-- C7 amended: simulate_open never fails; an entry price above 0 gives
quantity notional over entry, an entry price at or below 0 gives
quantity 0, and in both cases the position is inserted into the open
set under the fresh sequential identifier. -/
theorem C7_simulate_open_quantity (cfg : Config) (symbol : String) (side : Side)
    (price : ℚ) (st : BotState) :
    (0 < price → (simulate_open cfg symbol side price st).2.qty = cfg.trade_usd / price) ∧
      (price ≤ 0 → (simulate_open cfg symbol side price st).2.qty = 0) ∧
      (simulate_open cfg symbol side price st).2.trade_id = st.trade_seq + 1 ∧
      dict_get (st.trade_seq + 1) (simulate_open cfg symbol side price st).1.open_positions =
        some (simulate_open cfg symbol side price st).2 := by
  refine ⟨?_, ?_, rfl, ?_⟩
  · intro h
    simp [simulate_open, h]
  · intro h
    simp [simulate_open, not_lt.mpr h]
  · simp [simulate_open, dict_get]

/-- Witness for C7 amended: opening at price 50 with the default 100
notional yields quantity 2. -/
theorem C7_simulate_open_quantity_witness :
    (simulate_open defaultConfig "BTC/USDT" .long 50 initState).2.qty =
      defaultConfig.trade_usd / 50 :=
  (C7_simulate_open_quantity defaultConfig "BTC/USDT" .long 50 initState).1 (by norm_num)

/-- C8: closing an identifier that is not in the open set fails (returns
none, mutating nothing); closing an open identifier removes exactly that
position — its key is gone, every other key's binding is untouched — and
returns the trade record for that position. -/
theorem C8_simulate_close_set (cfg : Config) (tid : ℕ) (exit_price : ℚ)
    (st : BotState) :
    (dict_get tid st.open_positions = none → simulate_close cfg tid exit_price st = none) ∧
      ∀ pos, dict_get tid st.open_positions = some pos →
        ∃ st2 trade, simulate_close cfg tid exit_price st = some (st2, trade) ∧
          dict_get tid st2.open_positions = none ∧
          (∀ tid2, tid2 ≠ tid → dict_get tid2 st2.open_positions =
            dict_get tid2 st.open_positions) ∧
          trade.trade_id = tid ∧ trade.symbol = pos.symbol ∧ trade.side = pos.side ∧
          trade.entry = pos.entry ∧ trade.exit = exit_price := by
  constructor
  · intro h
    unfold simulate_close
    rw [h]
  · intro pos h
    unfold simulate_close
    rw [h]
    exact ⟨_, _, rfl, dict_get_del_self tid st.open_positions,
      fun tid2 hne => dict_get_del_ne tid tid2 st.open_positions hne,
      rfl, rfl, rfl, rfl, rfl⟩

/-- Witness for C8: closing the just-opened position 1 at price 102
succeeds, removes it from the open set, and returns its trade record. -/
theorem C8_simulate_close_set_witness :
    ∃ st2 trade,
      simulate_close defaultConfig 1 102
          (simulate_open defaultConfig "BTC/USDT" .long 100 initState).1 =
        some (st2, trade) ∧
        dict_get 1 st2.open_positions = none ∧
        (∀ tid2, tid2 ≠ 1 → dict_get tid2 st2.open_positions =
          dict_get tid2 (simulate_open defaultConfig "BTC/USDT" .long 100 initState).1.open_positions) ∧
        trade.trade_id = 1 ∧
        trade.symbol = (simulate_open defaultConfig "BTC/USDT" .long 100 initState).2.symbol ∧
        trade.side = (simulate_open defaultConfig "BTC/USDT" .long 100 initState).2.side ∧
        trade.entry = (simulate_open defaultConfig "BTC/USDT" .long 100 initState).2.entry ∧
        trade.exit = 102 :=
  (C8_simulate_close_set defaultConfig 1 102
      (simulate_open defaultConfig "BTC/USDT" .long 100 initState).1).2
    (simulate_open defaultConfig "BTC/USDT" .long 100 initState).2 (by rfl)

/-- Half-even rounding sends anything of absolute value below one half
to zero. -/
lemma roundHalfEven_eq_zero (x : ℚ) (h : |x| < 1 / 2) : roundHalfEven x = 0 := by
  rcases abs_lt.mp h with ⟨h1, h2⟩
  simp only [roundHalfEven]
  by_cases hx : 0 ≤ x
  · have hf : ⌊x⌋ = 0 := Int.floor_eq_zero_iff.mpr ⟨hx, by linarith⟩
    rw [hf]
    rw [if_pos (by push_cast; linarith)]
  · have hf : ⌊x⌋ = -1 := by
      rw [Int.floor_eq_iff]
      constructor
      · push_cast; linarith
      · push_cast; linarith
    rw [hf]
    rw [if_neg (by push_cast; intro hc; linarith), if_pos (by push_cast; linarith)]
    norm_num

/-- round(x, 2) sends anything of absolute value below 0.005 to zero. -/
lemma round2_eq_zero (q : ℚ) (h : |q| < 1 / 200) : round2 q = 0 := by
  unfold round2
  rw [roundHalfEven_eq_zero]
  · norm_num
  · rw [abs_mul]
    rw [show |(100 : ℚ)| = 100 by norm_num]
    linarith

/-- Closing at the entry price gives an unrounded percent profit of
exactly zero, for both directions. -/
lemma pnl_pct_of_self (pos : Position) : pnl_pct_of pos pos.entry = 0 := by
  unfold pnl_pct_of
  split_ifs <;> simp

/-- Closing at the entry price gives an unrounded dollar profit of
exactly zero. -/
lemma pnl_usd_of_self (cfg : Config) (pos : Position) :
    pnl_usd_of cfg pos pos.entry = 0 := by
  unfold pnl_usd_of
  rw [pnl_pct_of_self]
  simp

/-- C3: closing an open position computes the percent profit as the
signed relative move of exit versus entry times 100 (sign flipped for a
short), the dollar profit as the fixed notional times percent over 100,
records them rounded to 4 and 2 decimals respectively, classifies the
outcome as win exactly when the dollar profit is strictly positive (zero
profit is a loss), and closing at the entry price yields recorded
percent profit exactly 0 and outcome loss. -/
theorem C3_simulate_close_profit (cfg : Config) (tid : ℕ) (exit_price : ℚ)
    (st : BotState) (pos : Position)
    (h : dict_get tid st.open_positions = some pos) :
    ∃ st2 trade, simulate_close cfg tid exit_price st = some (st2, trade) ∧
      pnl_pct_of pos exit_price =
        (if pos.side = .long then (exit_price - pos.entry) / pos.entry * 100
          else (pos.entry - exit_price) / pos.entry * 100) ∧
      pnl_usd_of cfg pos exit_price = cfg.trade_usd * (pnl_pct_of pos exit_price / 100) ∧
      trade.pnl_pct = round4 (pnl_pct_of pos exit_price) ∧
      trade.pnl_usd = round2 (pnl_usd_of cfg pos exit_price) ∧
      (trade.result = "win" ↔ 0 < pnl_usd_of cfg pos exit_price) ∧
      (trade.result = "win" ∨ trade.result = "loss") ∧
      (exit_price = pos.entry → trade.pnl_pct = 0 ∧ trade.result = "loss") := by
  unfold simulate_close
  rw [h]
  refine ⟨_, _, rfl, rfl, rfl, rfl, rfl, ?_, ?_, ?_⟩
  · show (if pnl_usd_of cfg pos exit_price > 0 then "win" else "loss") = "win" ↔
      0 < pnl_usd_of cfg pos exit_price
    by_cases hw : pnl_usd_of cfg pos exit_price > 0
    · rw [if_pos hw]
      simp [hw]
    · rw [if_neg hw]
      constructor
      · intro hc; exact absurd hc (by decide)
      · intro hc; exact absurd hc hw
  · show (if pnl_usd_of cfg pos exit_price > 0 then "win" else "loss") = "win" ∨
      (if pnl_usd_of cfg pos exit_price > 0 then "win" else "loss") = "loss"
    split_ifs
    · exact Or.inl rfl
    · exact Or.inr rfl
  · intro he
    subst he
    constructor
    · show round4 (pnl_pct_of pos pos.entry) = 0
      rw [pnl_pct_of_self]
      unfold round4
      rw [show (0 : ℚ) * 10000 = 0 by ring, roundHalfEven_eq_zero 0 (by norm_num)]
      norm_num
    · show (if pnl_usd_of cfg pos pos.entry > 0 then "win" else "loss") = "loss"
      rw [if_neg]
      rw [pnl_usd_of_self]
      exact lt_irrefl 0

/-- Witness for C3: closing the position opened at 100 with exit price
equal to the entry yields recorded percent profit exactly 0 and outcome
loss. -/
theorem C3_simulate_close_profit_witness :
    ∃ st2 trade,
      simulate_close defaultConfig 1 100
          (simulate_open defaultConfig "BTC/USDT" .long 100 initState).1 =
        some (st2, trade) ∧
        pnl_pct_of (simulate_open defaultConfig "BTC/USDT" .long 100 initState).2 100 =
          (if (simulate_open defaultConfig "BTC/USDT" .long 100 initState).2.side = .long then
            (100 - (simulate_open defaultConfig "BTC/USDT" .long 100 initState).2.entry) /
              (simulate_open defaultConfig "BTC/USDT" .long 100 initState).2.entry * 100
          else
            ((simulate_open defaultConfig "BTC/USDT" .long 100 initState).2.entry - 100) /
              (simulate_open defaultConfig "BTC/USDT" .long 100 initState).2.entry * 100) ∧
        pnl_usd_of defaultConfig (simulate_open defaultConfig "BTC/USDT" .long 100 initState).2 100 =
          defaultConfig.trade_usd *
            (pnl_pct_of (simulate_open defaultConfig "BTC/USDT" .long 100 initState).2 100 / 100) ∧
        trade.pnl_pct =
          round4 (pnl_pct_of (simulate_open defaultConfig "BTC/USDT" .long 100 initState).2 100) ∧
        trade.pnl_usd =
          round2 (pnl_usd_of defaultConfig
            (simulate_open defaultConfig "BTC/USDT" .long 100 initState).2 100) ∧
        (trade.result = "win" ↔
          0 < pnl_usd_of defaultConfig
            (simulate_open defaultConfig "BTC/USDT" .long 100 initState).2 100) ∧
        (trade.result = "win" ∨ trade.result = "loss") ∧
        ((100 : ℚ) = (simulate_open defaultConfig "BTC/USDT" .long 100 initState).2.entry →
          trade.pnl_pct = 0 ∧ trade.result = "loss") :=
  C3_simulate_close_profit defaultConfig 1 100
    (simulate_open defaultConfig "BTC/USDT" .long 100 initState).1
    (simulate_open defaultConfig "BTC/USDT" .long 100 initState).2 (by rfl)

/-- C10: simulate_close feeds the weight update the dollar profit
rounded to 2 decimals, so a closed trade whose exact dollar profit is
nonzero but of absolute value below 0.005 records a dollar profit of 0
and changes no weight. -/
theorem C10_small_profit_no_weight_change (cfg : Config) (tid : ℕ) (exit_price : ℚ)
    (st : BotState) (pos : Position)
    (h : dict_get tid st.open_positions = some pos)
    (hne : pnl_usd_of cfg pos exit_price ≠ 0)
    (hsmall : |pnl_usd_of cfg pos exit_price| < 1 / 200) :
    ∃ st2 trade, simulate_close cfg tid exit_price st = some (st2, trade) ∧
      trade.pnl_usd = 0 ∧ ∀ name, st2.weights name = st.weights name := by
  unfold simulate_close
  rw [h]
  refine ⟨_, _, rfl, ?_, ?_⟩
  · exact round2_eq_zero _ hsmall
  · intro name
    show update_weights_from_trade cfg (round2 (pnl_usd_of cfg pos exit_price))
      pos.responses st.weights name = st.weights name
    rw [round2_eq_zero _ hsmall]
    unfold update_weights_from_trade
    rw [if_pos rfl]

/-- Witness for C10: a long opened at 100 and closed at 100.001 has
exact dollar profit 0.001, which is nonzero but rounds to 0, so no
weight changes. -/
theorem C10_small_profit_no_weight_change_witness :
    ∃ st2 trade,
      simulate_close defaultConfig 1 (100 + 1 / 1000)
          (simulate_open defaultConfig "BTC/USDT" .long 100 initState).1 =
        some (st2, trade) ∧
        trade.pnl_usd = 0 ∧
        ∀ name, st2.weights name =
          (simulate_open defaultConfig "BTC/USDT" .long 100 initState).1.weights name :=
  C10_small_profit_no_weight_change defaultConfig 1 (100 + 1 / 1000)
    (simulate_open defaultConfig "BTC/USDT" .long 100 initState).1
    (simulate_open defaultConfig "BTC/USDT" .long 100 initState).2 (by rfl)
    (by norm_num [pnl_usd_of, pnl_pct_of, simulate_open, defaultConfig])
    (by norm_num [pnl_usd_of, pnl_pct_of, simulate_open, defaultConfig, abs_of_nonneg])

/-- A response-loop step leaves every other engine's weight unchanged. -/
lemma apply_response_ne (cfg : Config) (pnl : ℚ) (snap w : String → ℝ)
    (r : Response) (name : String) (h : name ≠ r.engine) :
    apply_response cfg pnl snap w r name = w name := by
  simp [apply_response, h]

/-- The response loop leaves an engine absent from the responses
unchanged. -/
lemma foldl_apply_of_not_mem (cfg : Config) (pnl : ℚ) (snap : String → ℝ) :
    ∀ (l : List Response) (w : String → ℝ) (name : String),
      name ∉ l.map Response.engine →
      l.foldl (apply_response cfg pnl snap) w name = w name := by
  intro l
  induction l with
  | nil => intro w name _; rfl
  | cons hd t ih =>
    intro w name h
    rw [List.map_cons, List.mem_cons] at h
    push_neg at h
    rw [List.foldl_cons, ih _ _ h.2, apply_response_ne _ _ _ _ _ _ h.1]

/-- The response loop sets the weight of an engine appearing exactly
once to the clamped exponential update of its snapshot weight. -/
lemma foldl_apply_of_mem (cfg : Config) (pnl : ℚ) (snap : String → ℝ) :
    ∀ (l : List Response) (w : String → ℝ) (r : Response),
      r ∈ l → (l.map Response.engine).Nodup →
      l.foldl (apply_response cfg pnl snap) w r.engine =
        clamp_weight (snap r.engine * Real.exp ((cfg.weight_lr : ℝ) * vote_score pnl r)) := by
  intro l
  induction l with
  | nil => intro w r h _; exact absurd h (List.not_mem_nil r)
  | cons hd t ih =>
    intro w r hmem hnodup
    rw [List.map_cons, List.nodup_cons] at hnodup
    rw [List.foldl_cons]
    rcases List.mem_cons.mp hmem with heq | hmem_t
    · subst heq
      rw [foldl_apply_of_not_mem cfg pnl snap t _ _ hnodup.1]
      simp [apply_response]
    · exact ih _ r hmem_t hnodup.2

/-- The clamp always lands in the interval from 0.1 to 20. -/
lemma clamp_weight_mem (x : ℝ) : 0.1 ≤ clamp_weight x ∧ clamp_weight x ≤ 20 := by
  unfold clamp_weight
  constructor
  · exact le_max_left _ _
  · apply max_le
    · norm_num
    · exact min_le_right _ _

/-- The response loop keeps every weight inside the clamp interval. -/
lemma foldl_apply_bounds (cfg : Config) (pnl : ℚ) (snap : String → ℝ) :
    ∀ (l : List Response) (w : String → ℝ) (name : String),
      0.1 ≤ w name ∧ w name ≤ 20 →
      0.1 ≤ l.foldl (apply_response cfg pnl snap) w name ∧
        l.foldl (apply_response cfg pnl snap) w name ≤ 20 := by
  intro l
  induction l with
  | nil => intro w name h; exact h
  | cons hd t ih =>
    intro w name h
    rw [List.foldl_cons]
    apply ih
    by_cases he : name = hd.engine
    · show 0.1 ≤ apply_response cfg pnl snap w hd name ∧ _
      simp only [apply_response, if_pos he]
      exact clamp_weight_mem _
    · rw [apply_response_ne _ _ _ _ _ _ he]
      exact h

/-- One whole weight update keeps every weight inside the clamp
interval. -/
lemma update_weights_bounds (cfg : Config) (pnl : ℚ) (responses : List Response)
    (w : String → ℝ) (name : String) (h : 0.1 ≤ w name ∧ w name ≤ 20) :
    0.1 ≤ update_weights_from_trade cfg pnl responses w name ∧
      update_weights_from_trade cfg pnl responses w name ≤ 20 := by
  unfold update_weights_from_trade
  split_ifs
  · exact h
  · exact foldl_apply_bounds cfg pnl w responses w name h

/-- C5: for a trade with nonzero recorded dollar profit, the update
gives each contributing engine (appearing once) the weight
old times exp(learningRate times confidence times alignment times
sqrt(|profit| + 1)), clamped to the interval from 0.1 to 20, where the
alignment is +1 exactly when the vote equals the profitable side (buy on
a positive profit, sell on a negative one); a hold vote always gets
alignment -1. -/
theorem C5_update_weight_rule (cfg : Config) (pnl : ℚ) (hpnl : pnl ≠ 0)
    (responses : List Response) (r : Response) (hr : r ∈ responses)
    (hnodup : (responses.map Response.engine).Nodup) (w : String → ℝ) :
    update_weights_from_trade cfg pnl responses w r.engine =
        max 0.1 (min (w r.engine *
          Real.exp ((cfg.weight_lr : ℝ) * ((r.confidence : ℝ) *
            (if r.vote = (if 0 < pnl then Action.buy else Action.sell) then (1 : ℝ) else -1) *
            Real.sqrt (|(pnl : ℝ)| + 1)))) 20) ∧
      alignment pnl r.vote =
        (if r.vote = (if 0 < pnl then Action.buy else Action.sell) then (1 : ℝ) else -1) ∧
      (r.vote = .hold → alignment pnl r.vote = -1) := by
  refine ⟨?_, rfl, ?_⟩
  · unfold update_weights_from_trade
    rw [if_neg hpnl, foldl_apply_of_mem cfg pnl w responses w r hr hnodup]
    rfl
  · intro hv
    unfold alignment
    rw [hv]
    by_cases hp : 0 < pnl
    · rw [if_pos hp, if_neg (by decide)]
    · rw [if_neg hp, if_neg (by decide)]

/-- Witness for C5: a winning trade with profit 1 updates the weight of
the single contributing buy vote to the clamped exponential formula. -/
theorem C5_update_weight_rule_witness :
    update_weights_from_trade defaultConfig 1
        [{ engine := "GPT-5", vote := .buy, confidence := 8 / 10, rationale := "r" }]
        (fun _ => 1)
        ({ engine := "GPT-5", vote := .buy, confidence := 8 / 10, rationale := "r" } :
          Response).engine =
      max 0.1 (min ((fun _ : String => (1 : ℝ))
          ({ engine := "GPT-5", vote := .buy, confidence := 8 / 10, rationale := "r" } :
            Response).engine *
        Real.exp ((defaultConfig.weight_lr : ℝ) * (((8 / 10 : ℚ) : ℝ) *
          (if ({ engine := "GPT-5", vote := .buy, confidence := 8 / 10, rationale := "r" } :
              Response).vote = (if (0 : ℚ) < 1 then Action.buy else Action.sell) then (1 : ℝ)
            else -1) *
          Real.sqrt (|((1 : ℚ) : ℝ)| + 1)))) 20) :=
  (C5_update_weight_rule defaultConfig 1 (by norm_num)
    [{ engine := "GPT-5", vote := .buy, confidence := 8 / 10, rationale := "r" }]
    { engine := "GPT-5", vote := .buy, confidence := 8 / 10, rationale := "r" }
    (by simp) (by simp) (fun _ => 1)).1

/-- C6: the weight update performed by closing a trade is a no-op when
the trade's recorded dollar profit is exactly zero, and is applied to
the position's contributing votes after every close whose recorded
dollar profit is nonzero. -/
theorem C6_zero_profit_frame (cfg : Config) (tid : ℕ) (exit_price : ℚ)
    (st : BotState) (pos : Position)
    (h : dict_get tid st.open_positions = some pos) :
    ∃ st2 trade, simulate_close cfg tid exit_price st = some (st2, trade) ∧
      (trade.pnl_usd = 0 → ∀ name, st2.weights name = st.weights name) ∧
      (trade.pnl_usd ≠ 0 → st2.weights =
        update_weights_from_trade cfg trade.pnl_usd pos.responses st.weights) := by
  unfold simulate_close
  rw [h]
  refine ⟨_, _, rfl, ?_, ?_⟩
  · intro hz name
    show update_weights_from_trade cfg (round2 (pnl_usd_of cfg pos exit_price))
      pos.responses st.weights name = st.weights name
    have hz2 : round2 (pnl_usd_of cfg pos exit_price) = 0 := hz
    rw [hz2]
    unfold update_weights_from_trade
    rw [if_pos rfl]
  · intro _
    rfl

/-- Witness for C6: closing the position opened at 100 back at 100 has
recorded dollar profit 0 and leaves every weight unchanged. -/
theorem C6_zero_profit_frame_witness :
    ∃ st2 trade,
      simulate_close defaultConfig 1 100
          (simulate_open defaultConfig "BTC/USDT" .long 100 initState).1 =
        some (st2, trade) ∧
        (trade.pnl_usd = 0 → ∀ name, st2.weights name =
          (simulate_open defaultConfig "BTC/USDT" .long 100 initState).1.weights name) ∧
        (trade.pnl_usd ≠ 0 → st2.weights =
          update_weights_from_trade defaultConfig trade.pnl_usd
            (simulate_open defaultConfig "BTC/USDT" .long 100 initState).2.responses
            (simulate_open defaultConfig "BTC/USDT" .long 100 initState).1.weights) :=
  C6_zero_profit_frame defaultConfig 1 100
    (simulate_open defaultConfig "BTC/USDT" .long 100 initState).1
    (simulate_open defaultConfig "BTC/USDT" .long 100 initState).2 (by rfl)

/-- The clamp is the identity cap at 20 for any value at or above 20. -/
lemma clamp_weight_at_cap (x : ℝ) (h : 20 ≤ x) : clamp_weight x = 20 := by
  unfold clamp_weight
  rw [min_eq_right h, max_eq_right (by norm_num)]

/-- A whole sequence of weight updates keeps every weight inside the
clamp interval. -/
lemma apply_trades_bounds (cfg : Config) :
    ∀ (ts : List (ℚ × List Response)) (w : String → ℝ) (name : String),
      0.1 ≤ w name ∧ w name ≤ 20 →
      0.1 ≤ apply_trades cfg ts w name ∧ apply_trades cfg ts w name ≤ 20 := by
  intro ts
  induction ts with
  | nil => intro w name h; exact h
  | cons hd t ih =>
    intro w name h
    unfold apply_trades at ih ⊢
    rw [List.foldl_cons]
    exact ih _ _ (update_weights_bounds cfg hd.1 hd.2 w name h)

/-- C9 counterexample: a source already at the 20.0 cap that votes buy
with positive confidence on a winning trade keeps weight exactly 20 —
the update does not strictly increase it. -/
theorem C9_counterexample :
    update_weights_from_trade defaultConfig 1
        [{ engine := "GPT-5", vote := .buy, confidence := 8 / 10, rationale := "r" }]
        (fun _ => 20)
        ({ engine := "GPT-5", vote := .buy, confidence := 8 / 10, rationale := "r" } :
          Response).engine = 20 ∧
      ¬ ((fun _ : String => (20 : ℝ))
          ({ engine := "GPT-5", vote := .buy, confidence := 8 / 10, rationale := "r" } :
            Response).engine <
        update_weights_from_trade defaultConfig 1
          [{ engine := "GPT-5", vote := .buy, confidence := 8 / 10, rationale := "r" }]
          (fun _ => 20)
          ({ engine := "GPT-5", vote := .buy, confidence := 8 / 10, rationale := "r" } :
            Response).engine) := by
  have key : update_weights_from_trade defaultConfig 1
      [{ engine := "GPT-5", vote := .buy, confidence := 8 / 10, rationale := "r" }]
      (fun _ => 20)
      ({ engine := "GPT-5", vote := .buy, confidence := 8 / 10, rationale := "r" } :
        Response).engine = 20 := by
    unfold update_weights_from_trade
    rw [if_neg (by norm_num : ¬(1 : ℚ) = 0)]
    rw [foldl_apply_of_mem defaultConfig 1 (fun _ => 20)
      [{ engine := "GPT-5", vote := .buy, confidence := 8 / 10, rationale := "r" }]
      (fun _ => 20)
      { engine := "GPT-5", vote := .buy, confidence := 8 / 10, rationale := "r" }
      (by simp) (by simp)]
    have harg : (0 : ℝ) ≤ (defaultConfig.weight_lr : ℝ) * vote_score 1
        { engine := "GPT-5", vote := .buy, confidence := 8 / 10, rationale := "r" } := by
      unfold vote_score alignment
      rw [if_pos (by rw [if_pos (by norm_num : (0 : ℚ) < 1)])]
      have hs : (0 : ℝ) ≤ Real.sqrt (|((1 : ℚ) : ℝ)| + 1) := Real.sqrt_nonneg _
      have hc : (0 : ℝ) ≤ ((defaultConfig.weight_lr : ℚ) : ℝ) := by
        norm_num [defaultConfig]
      positivity
    have hexp : (1 : ℝ) ≤ Real.exp ((defaultConfig.weight_lr : ℝ) * vote_score 1
        { engine := "GPT-5", vote := .buy, confidence := 8 / 10, rationale := "r" }) :=
      Real.one_le_exp harg
    apply clamp_weight_at_cap
    calc (20 : ℝ) = 20 * 1 := by norm_num
    _ ≤ 20 * Real.exp _ := by
        apply mul_le_mul_of_nonneg_left hexp (by norm_num)
  exact ⟨key, by rw [key]; exact lt_irrefl 20⟩

/-- C9 amended: on a winning trade, a contributing buy vote with
positive confidence strictly increases its source's weight provided the
current weight is below the 20.0 cap, a contributing sell vote strictly
decreases it provided the current weight is above the 0.1 floor, and
after any sequence of updates starting from the initial weight 1.0 every
weight stays inside the interval from 0.1 to 20. -/
theorem C9_weight_update_monotonic (cfg : Config) (hlr : 0 < cfg.weight_lr)
    (pnl : ℚ) (hpnl : 0 < pnl) (responses : List Response) (r : Response)
    (hr : r ∈ responses) (hnodup : (responses.map Response.engine).Nodup)
    (hconf : 0 < r.confidence) (w : String → ℝ) :
    (r.vote = .buy → 0.1 ≤ w r.engine → w r.engine < 20 →
      w r.engine < update_weights_from_trade cfg pnl responses w r.engine) ∧
      (r.vote = .sell → 0.1 < w r.engine →
        update_weights_from_trade cfg pnl responses w r.engine < w r.engine) ∧
      ∀ ts : List (ℚ × List Response), ∀ name,
        0.1 ≤ apply_trades cfg ts initState.weights name ∧
          apply_trades cfg ts initState.weights name ≤ 20 := by
  have hupd : update_weights_from_trade cfg pnl responses w r.engine =
      clamp_weight (w r.engine * Real.exp ((cfg.weight_lr : ℝ) * vote_score pnl r)) := by
    unfold update_weights_from_trade
    rw [if_neg (ne_of_gt hpnl), foldl_apply_of_mem cfg pnl w responses w r hr hnodup]
  have hsqrt : (0 : ℝ) < Real.sqrt (|(pnl : ℝ)| + 1) :=
    Real.sqrt_pos.mpr (by positivity)
  have hconfR : (0 : ℝ) < (r.confidence : ℝ) := by exact_mod_cast hconf
  have hlrR : (0 : ℝ) < (cfg.weight_lr : ℝ) := by exact_mod_cast hlr
  refine ⟨?_, ?_, ?_⟩
  · intro hv hw1 hw2
    have halign : alignment pnl r.vote = 1 := by
      unfold alignment
      rw [hv, if_pos (by rw [if_pos hpnl])]
    have hscore : 0 < vote_score pnl r := by
      unfold vote_score
      rw [halign]
      have := mul_pos hconfR hsqrt
      nlinarith
    have hexp : 1 < Real.exp ((cfg.weight_lr : ℝ) * vote_score pnl r) :=
      Real.one_lt_exp_iff.mpr (mul_pos hlrR hscore)
    have hwpos : (0 : ℝ) < w r.engine := lt_of_lt_of_le (by norm_num) hw1
    have hlt : w r.engine < w r.engine * Real.exp ((cfg.weight_lr : ℝ) * vote_score pnl r) :=
      lt_mul_of_one_lt_right hwpos hexp
    rw [hupd]
    unfold clamp_weight
    exact lt_of_lt_of_le (lt_min hlt hw2) (le_max_right _ _)
  · intro hv hw1
    have halign : alignment pnl r.vote = -1 := by
      unfold alignment
      rw [hv, if_neg (by rw [if_pos hpnl]; decide)]
    have hscore : vote_score pnl r < 0 := by
      unfold vote_score
      rw [halign]
      have := mul_pos hconfR hsqrt
      nlinarith
    have hexp : Real.exp ((cfg.weight_lr : ℝ) * vote_score pnl r) < 1 :=
      Real.exp_lt_one_iff.mpr (mul_neg_of_pos_of_neg hlrR hscore)
    have hwpos : (0 : ℝ) < w r.engine := lt_trans (by norm_num) hw1
    have hlt : w r.engine * Real.exp ((cfg.weight_lr : ℝ) * vote_score pnl r) < w r.engine :=
      mul_lt_of_lt_one_right hwpos hexp
    rw [hupd]
    unfold clamp_weight
    exact max_lt hw1 (lt_of_le_of_lt (min_le_left _ _) hlt)
  · intro ts name
    apply apply_trades_bounds
    constructor
    · show (0.1 : ℝ) ≤ 1; norm_num
    · show (1 : ℝ) ≤ 20; norm_num

/-- Witness for C9 amended: on a winning trade with profit 1, the single
contributing buy vote with confidence 0.8 strictly increases its
source's weight from 1. -/
theorem C9_weight_update_monotonic_witness :
    (fun _ : String => (1 : ℝ))
        ({ engine := "GPT-5", vote := .buy, confidence := 8 / 10, rationale := "r" } :
          Response).engine <
      update_weights_from_trade defaultConfig 1
        [{ engine := "GPT-5", vote := .buy, confidence := 8 / 10, rationale := "r" }]
        (fun _ => 1)
        ({ engine := "GPT-5", vote := .buy, confidence := 8 / 10, rationale := "r" } :
          Response).engine :=
  (C9_weight_update_monotonic defaultConfig (by norm_num [defaultConfig]) 1 (by norm_num)
    [{ engine := "GPT-5", vote := .buy, confidence := 8 / 10, rationale := "r" }]
    { engine := "GPT-5", vote := .buy, confidence := 8 / 10, rationale := "r" }
    (by simp) (by simp) (by norm_num) (fun _ => 1)).1 rfl (by norm_num) (by norm_num)

end BinanceBot
